import Mathlib

/-!
# Pending authentication codes

A verification development for `internal/common/db/authcodes.go`.

The Go methods of `AuthTable` are embedded as state-passing functions over the
contents of the table `auth_codes`.  The table lives in PostgreSQL behind gorm;
the three gorm calls the file makes (`Find` into one struct, `Create`, and
`Where(..).Delete`) are modelled by `Find`, `Create` and `Delete` below, with
the two `unique` column constraints of the struct tags enforced by `Create`.

Every store access takes a `fault : Option DBError`: `some e` is an access that
fails in transport with `e` and leaves the table as it was, `none` is an access
that reaches the table.
-/

namespace db

/-! ## Data model -/

/-- Row of the table `auth_codes` (authcodes.go lines 18-23): both columns are
`text`, `unique` and `not null`. -/
structure AuthCode where
  AuthCode : String
  PlayerID : String
deriving DecidableEq, Repr

/-- Contents of the table `auth_codes`, the rows in the order the table scans them. -/
abbrev Table := List AuthCode

/-- Errors a gorm call hands back in `.Error`. -/
inductive DBError where
  | recordNotFound
  | uniqueViolation
  | connection (msg : String)
deriving DecidableEq, Repr

/-- The `unique` tags of lines 20 and 22: no two rows share `auth_code`, and no
two rows share `player_id`. -/
def UniqueColumns (t : Table) : Prop :=
  (t.map (fun r => r.AuthCode)).Nodup ∧ (t.map (fun r => r.PlayerID)).Nodup

instance (t : Table) : Decidable (UniqueColumns t) := by
  unfold UniqueColumns
  infer_instance

/-! ## Token generation: `uuid.New()`, `UUID.String()`, `strings.Split` -/

/-- A `uuid.UUID` is `[16]byte`. -/
abbrev UUID := Fin 16 → Fin 256

/-- The digit table of `encoding/hex`. -/
def hextable : List Char := "0123456789abcdef".toList

/-- The table entry `hextable[n]`. -/
def hexDigit (n : Nat) : Char := hextable.getD n '0'

/-- Go `hex.Encode`: every byte `v` becomes `hextable[v>>4]`, `hextable[v&0x0f]`. -/
def hexEncode : List (Fin 256) → List Char
  | [] => []
  | v :: vs => hexDigit (v.val / 16) :: hexDigit (v.val % 16) :: hexEncode vs

/-- Go `UUID.String()`: the 36-character form `xxxxxxxx-xxxx-xxxx-xxxx-xxxxxxxxxxxx`,
built as `encodeHex` does from `uuid[:4]`, `uuid[4:6]`, `uuid[6:8]`, `uuid[8:10]`
and `uuid[10:]`. -/
def UUID_String (u : UUID) : String :=
  String.mk (hexEncode [u 0, u 1, u 2, u 3] ++ '-' ::
    (hexEncode [u 4, u 5] ++ '-' ::
    (hexEncode [u 6, u 7] ++ '-' ::
    (hexEncode [u 8, u 9] ++ '-' ::
    hexEncode [u 10, u 11, u 12, u 13, u 14, u 15]))))

/-- Splitting a character sequence at every occurrence of `sep`; the result is
never empty (a sequence without `sep` gives itself as the only piece). -/
def splitChars (sep : Char) : List Char → List (List Char)
  | [] => [[]]
  | c :: cs =>
    if c = sep then [] :: splitChars sep cs
    else
      match splitChars sep cs with
      | [] => [[c]]
      | w :: ws => (c :: w) :: ws

/-- Go `strings.Split(s, sep)` for a one-character separator (the only call,
line 58, passes `"-"`). -/
def strings_Split (s : String) (sep : Char) : List String :=
  (splitChars sep s.toList).map String.mk

/-- Line 58: `strings.Split(newUUID.String(), "-")[0]`. -/
def newToken (newUUID : UUID) : String :=
  (strings_Split (UUID_String newUUID) '-').headD ""

/-! ## The three gorm calls -/

/-- The gorm call `Find(&result, cond)` with a single struct as destination:
`SELECT * FROM auth_codes WHERE cond`, every returned row scanned into `result`
in turn.  Without a row `result` is left as passed in and the error is
`ErrRecordNotFound`; a transport failure leaves `result` as passed in too. -/
def Find (fault : Option DBError) (t : Table) (cond : AuthCode → Bool)
    (result : AuthCode) : AuthCode × Option DBError :=
  match fault with
  | some e => (result, some e)
  | none =>
    match t.filter cond with
    | [] => (result, some DBError.recordNotFound)
    | row :: rows => ((row :: rows).foldl (fun _ r => r) result, none)

/-- The gorm call `Create(&value)`: `INSERT INTO auth_codes`.  The table rejects
a row whose `auth_code` or `player_id` is already present (the `unique`
constraints) and is then left unchanged. -/
def Create (fault : Option DBError) (t : Table) (value : AuthCode) :
    Option DBError × Table :=
  match fault with
  | some e => (some e, t)
  | none =>
    if t.any (fun r => r.AuthCode == value.AuthCode || r.PlayerID == value.PlayerID) then
      (some DBError.uniqueViolation, t)
    else (none, t ++ [value])

/-- The gorm call `Where(cond).Delete(AuthCode{})`: `DELETE FROM auth_codes WHERE
cond`; deleting no row is not an error. -/
def Delete (fault : Option DBError) (t : Table) (cond : AuthCode → Bool) :
    Option DBError × Table :=
  match fault with
  | some e => (some e, t)
  | none => (none, t.filter (fun r => !cond r))

/-! ## The methods of `AuthTable` -/

/-- Lines 73-83.  Returns `(authCode, err)` and the table afterwards. -/
def GetAuthCode (fault : Option DBError) (t : Table) (playerID : String) :
    (String × Option DBError) × Table :=
  let result : AuthCode := ⟨"", ""⟩
  let found := Find fault t (fun r => r.PlayerID == playerID) result
  ((found.1.AuthCode, found.2), t)

/-- Lines 104-114.  Returns `(playerID, err)` and the table afterwards. -/
def GetPlayerID (fault : Option DBError) (t : Table) (authCode : String) :
    (String × Option DBError) × Table :=
  let result : AuthCode := ⟨"", ""⟩
  let found := Find fault t (fun r => r.AuthCode == authCode) result
  ((found.1.PlayerID, found.2), t)

/-- Lines 118-125.  Returns `err` and the table afterwards. -/
def RemoveCode (fault : Option DBError) (t : Table) (authCode : String) :
    Option DBError × Table :=
  Delete fault t (fun r => r.AuthCode == authCode)

/-- What one call of `NewAuthCode` gets from outside: the value `uuid.New()`
returns and the transport outcome of its two store accesses. -/
structure Env where
  newUUID : UUID
  findFault : Option DBError
  createFault : Option DBError

/-- Lines 49-69.  `between` is what other callers do to the table after the
lookup of line 51 and before the insert of line 59 (`id` when the call runs
alone).  Go `len(oldAuthCode) > 0` tests that the string is not empty, which the
character count decides as well.  Returns `(authCode, err)` and the table
afterwards. -/
def NewAuthCode (env : Env) (between : Table → Table) (t : Table) (playerID : String) :
    (String × Option DBError) × Table :=
  let oldAuthCode := (GetAuthCode env.findFault t playerID).1.1
  if oldAuthCode.length > 0 then ((oldAuthCode, none), t)
  else
    let authCode := newToken env.newUUID
    match Create env.createFault (between t) ⟨authCode, playerID⟩ with
    | (some err, t1) => (("", some err), t1)
    | (none, t1) => ((authCode, none), t1)

/-- The table together with the goroutines started by line 94
(`go at.RemoveCode(authCode)`) that have not run yet, each given by its
argument. -/
structure World where
  table : Table
  goroutines : List String
deriving DecidableEq, Repr

/-- Lines 87-101.  The synchronous part: the lookup, and on success the start of
the goroutine.  Returns `(playerID, isOK)` and the world afterwards. -/
def Authorize (fault : Option DBError) (w : World) (authCode : String) :
    (String × Bool) × World :=
  let playerID := (GetPlayerID fault w.table authCode).1.1
  if playerID.length > 0 then
    ((playerID, true), ⟨w.table, w.goroutines ++ [authCode]⟩)
  else ((playerID, false), w)

/-- The `i`-th waiting goroutine runs: its `RemoveCode` is applied to the table
(its error goes nowhere) and it leaves the list. -/
def runGoroutine (fault : Option DBError) (w : World) (i : Nat) : World :=
  match w.goroutines.get? i with
  | none => w
  | some authCode => ⟨(RemoveCode fault w.table authCode).2, w.goroutines.eraseIdx i⟩

/-- One event of a history: a call of a method, or a waiting goroutine running. -/
inductive Call where
  | NewAuthCode (env : Env) (playerID : String)
  | Authorize (fault : Option DBError) (authCode : String)
  | RemoveCode (fault : Option DBError) (authCode : String)
  | runGoroutine (fault : Option DBError) (i : Nat)

/-- The world after one event. -/
def step (w : World) : Call → World
  | Call.NewAuthCode env playerID => ⟨(NewAuthCode env id w.table playerID).2, w.goroutines⟩
  | Call.Authorize fault authCode => (Authorize fault w authCode).2
  | Call.RemoveCode fault authCode => ⟨(RemoveCode fault w.table authCode).2, w.goroutines⟩
  | Call.runGoroutine fault i => runGoroutine fault w i

/-- The world after a finite history. -/
def run (w : World) (calls : List Call) : World :=
  calls.foldl step w

/-- The empty table with no goroutine waiting. -/
def World.empty : World := ⟨[], []⟩

/-! ## Hex encoding as the claim words it, and hex decoding -/

/-- The hex encoding of a byte sequence in the claim's words: every byte is
written as two base-16 digits, the high one first, with the lowercase digits of
`Nat.digitChar`.  It does not go through `hextable`, `hexDigit` or `hexEncode`. -/
def hexEncoding_spec : List (Fin 256) → List Char
  | [] => []
  | b :: bs => Nat.digitChar (b.val / 16) :: Nat.digitChar (b.val % 16) :: hexEncoding_spec bs

/-- Go `fromHexChar` of `encoding/hex` on lowercase input: the value of a hex
digit, from its character code (`'0'` is 48, `'a'` is 97). -/
def fromHexChar (c : Char) : Option Nat :=
  if 48 ≤ c.toNat ∧ c.toNat ≤ 57 then some (c.toNat - 48)
  else if 97 ≤ c.toNat ∧ c.toNat ≤ 102 then some (c.toNat - 97 + 10)
  else none

/-- Go `hex.Decode`: two digits make one byte, `(a << 4) | b`; a character that
is no digit, or an odd length, is an error. -/
def hexDecode : List Char → Option (List Nat)
  | [] => some []
  | [_] => none
  | hi :: lo :: cs =>
    match fromHexChar hi, fromHexChar lo, hexDecode cs with
    | some a, some b, some rest => some ((a * 16 + b) :: rest)
    | _, _, _ => none

/-! ## Sample values -/

/-- A sample value of `uuid.New()`; its string form is
`a1c6eb10-355a-7fa4-c9ee-13385d82a7cc`. -/
def sampleUUID : UUID := fun i => ⟨(i.val * 37 + 161) % 256, Nat.mod_lt _ (by decide)⟩

/-- A second sample value of `uuid.New()`, all bytes zero. -/
def zeroUUID : UUID := fun _ => 0

/-- A transport failure of the store. -/
def refused : DBError := DBError.connection "connection refused"

/-- A table with one pending code. -/
def sampleTable : Table := [⟨"a1b2c3d4", "player-1"⟩]

/-! ## Token shape -/

theorem hexDigit_mem (n : Nat) (h : n < 16) : hexDigit n ∈ hextable := by
  have key : ∀ i : Fin 16, hexDigit i.val ∈ hextable := by decide
  exact key ⟨n, h⟩

theorem hexDigit_ne_dash (n : Nat) (h : n < 16) : hexDigit n ≠ '-' := by
  have key : ∀ i : Fin 16, hexDigit i.val ≠ '-' := by decide
  exact key ⟨n, h⟩

theorem hexEncode_length (vs : List (Fin 256)) : (hexEncode vs).length = 2 * vs.length := by
  induction vs with
  | nil => rfl
  | cons v vs ih => simp [hexEncode, ih]; omega

theorem hexEncode_mem (vs : List (Fin 256)) : ∀ c ∈ hexEncode vs, c ∈ hextable := by
  induction vs with
  | nil => simp [hexEncode]
  | cons v vs ih =>
    intro c hc
    simp only [hexEncode, List.mem_cons] at hc
    rcases hc with rfl | rfl | hc
    · exact hexDigit_mem _ (by omega)
    · exact hexDigit_mem _ (by omega)
    · exact ih c hc

theorem hexEncode_ne_dash (vs : List (Fin 256)) : ∀ c ∈ hexEncode vs, c ≠ '-' := by
  intro c hc
  have hm := hexEncode_mem vs c hc
  intro hcd
  subst hcd
  revert hm
  decide

theorem splitChars_ne_nil (sep : Char) (cs : List Char) : splitChars sep cs ≠ [] := by
  cases cs with
  | nil => simp [splitChars]
  | cons c cs =>
    simp only [splitChars]
    split
    · simp
    · split <;> simp

theorem splitChars_head (sep : Char) (l1 l2 : List Char) (h : ∀ c ∈ l1, c ≠ sep) :
    (splitChars sep (l1 ++ sep :: l2)).head? = some l1 := by
  induction l1 with
  | nil => simp [splitChars]
  | cons c cs ih =>
    have hc : c ≠ sep := h c (List.mem_cons_self _ _)
    have ih1 := ih (fun d hd => h d (List.mem_cons_of_mem _ hd))
    simp only [List.cons_append, splitChars, if_neg hc]
    cases hs : splitChars sep (cs ++ sep :: l2) with
    | nil => rw [hs] at ih1; simp at ih1
    | cons w ws =>
      rw [hs] at ih1
      simp at ih1
      simp [ih1]

theorem newToken_eq (u : UUID) : newToken u = String.mk (hexEncode [u 0, u 1, u 2, u 3]) := by
  unfold newToken strings_Split UUID_String
  have h := splitChars_head '-' (hexEncode [u 0, u 1, u 2, u 3])
    (hexEncode [u 4, u 5] ++ '-' ::
    (hexEncode [u 6, u 7] ++ '-' ::
    (hexEncode [u 8, u 9] ++ '-' ::
    hexEncode [u 10, u 11, u 12, u 13, u 14, u 15]))) (hexEncode_ne_dash _)
  cases hs : splitChars '-' (hexEncode [u 0, u 1, u 2, u 3] ++ '-' ::
    (hexEncode [u 4, u 5] ++ '-' ::
    (hexEncode [u 6, u 7] ++ '-' ::
    (hexEncode [u 8, u 9] ++ '-' ::
    hexEncode [u 10, u 11, u 12, u 13, u 14, u 15])))) with
  | nil => rw [hs] at h; simp at h
  | cons w ws =>
    rw [hs] at h
    simp at h
    simp [hs, h]

theorem newToken_length (u : UUID) : (newToken u).length = 8 := by
  rw [newToken_eq]
  show (hexEncode [u 0, u 1, u 2, u 3]).length = 8
  rw [hexEncode_length]
  rfl

theorem newToken_ne_empty (u : UUID) : newToken u ≠ "" := by
  intro h
  have := newToken_length u
  rw [h] at this
  simp at this

theorem hexDigit_eq_digitChar (n : Nat) (h : n < 16) : hexDigit n = Nat.digitChar n := by
  have key : ∀ i : Fin 16, hexDigit i.val = Nat.digitChar i.val := by decide
  exact key ⟨n, h⟩

theorem fromHexChar_hexDigit (n : Nat) (h : n < 16) : fromHexChar (hexDigit n) = some n := by
  have key : ∀ i : Fin 16, fromHexChar (hexDigit i.val) = some i.val := by decide
  exact key ⟨n, h⟩

theorem hexEncode_eq_spec (vs : List (Fin 256)) : hexEncode vs = hexEncoding_spec vs := by
  induction vs with
  | nil => rfl
  | cons v vs ih =>
    simp only [hexEncode, hexEncoding_spec, ih]
    rw [hexDigit_eq_digitChar _ (by omega), hexDigit_eq_digitChar _ (by omega)]

theorem hexDecode_hexEncode (vs : List (Fin 256)) :
    hexDecode (hexEncode vs) = some (vs.map (fun v => v.val)) := by
  induction vs with
  | nil => rfl
  | cons v vs ih =>
    have hv : v.val / 16 * 16 + v.val % 16 = v.val := by omega
    simp only [hexEncode, hexDecode, ih, List.map_cons]
    rw [fromHexChar_hexDigit _ (by omega), fromHexChar_hexDigit _ (by omega)]
    simp only [hv]

/-! ## The table under its unique constraints -/

theorem filter_key_of_mem (f : AuthCode → String) (t : Table) (a : AuthCode)
    (hn : (t.map f).Nodup) (ha : a ∈ t) :
    t.filter (fun r => f r == f a) = [a] := by
  induction t with
  | nil => simp at ha
  | cons x xs ih =>
    rw [List.map_cons, List.nodup_cons] at hn
    obtain ⟨hx, hxs⟩ := hn
    rcases List.mem_cons.mp ha with rfl | hmem
    · have hnil : xs.filter (fun r => f r == f a) = [] := by
        rw [List.filter_eq_nil_iff]
        intro r hr hfr
        apply hx
        have : f r = f a := by simpa using hfr
        rw [← this]
        exact List.mem_map_of_mem f hr
      simp [List.filter_cons, hnil]
    · have hne : f x ≠ f a := by
        intro hfx
        apply hx
        rw [hfx]
        exact List.mem_map_of_mem f hmem
      simp [List.filter_cons, hne, ih hxs hmem]

theorem filter_key_of_absent (f : AuthCode → String) (t : Table) (k : String)
    (h : ∀ r ∈ t, f r ≠ k) : t.filter (fun r => f r == k) = [] := by
  rw [List.filter_eq_nil_iff]
  intro r hr hfr
  exact h r hr (by simpa using hfr)

theorem GetAuthCode_of_mem (t : Table) (c p : String) (hu : UniqueColumns t)
    (hm : (⟨c, p⟩ : AuthCode) ∈ t) : GetAuthCode none t p = ((c, none), t) := by
  have hf := filter_key_of_mem (fun r => r.PlayerID) t ⟨c, p⟩ hu.2 hm
  simp only at hf
  simp [GetAuthCode, Find, hf]

theorem GetAuthCode_of_absent (t : Table) (p : String) (h : ∀ r ∈ t, r.PlayerID ≠ p) :
    GetAuthCode none t p = (("", some DBError.recordNotFound), t) := by
  have hf := filter_key_of_absent (fun r => r.PlayerID) t p h
  simp only at hf
  simp [GetAuthCode, Find, hf]

theorem GetPlayerID_of_mem (t : Table) (c p : String) (hu : UniqueColumns t)
    (hm : (⟨c, p⟩ : AuthCode) ∈ t) : GetPlayerID none t c = ((p, none), t) := by
  have hf := filter_key_of_mem (fun r => r.AuthCode) t ⟨c, p⟩ hu.1 hm
  simp only at hf
  simp [GetPlayerID, Find, hf]

theorem GetPlayerID_of_absent (t : Table) (c : String) (h : ∀ r ∈ t, r.AuthCode ≠ c) :
    GetPlayerID none t c = (("", some DBError.recordNotFound), t) := by
  have hf := filter_key_of_absent (fun r => r.AuthCode) t c h
  simp only at hf
  simp [GetPlayerID, Find, hf]

theorem GetAuthCode_fault (e : DBError) (t : Table) (p : String) :
    GetAuthCode (some e) t p = (("", some e), t) := rfl

theorem length_pos_of_ne_empty (s : String) (h : s ≠ "") : s.length > 0 := by
  cases s with
  | mk l =>
    cases l with
    | nil => exact absurd rfl h
    | cons c cs => simp [String.length]

theorem Authorize_of_mem (w : World) (c p : String) (hu : UniqueColumns w.table)
    (hm : (⟨c, p⟩ : AuthCode) ∈ w.table) (hp : p ≠ "") :
    Authorize none w c = ((p, true), ⟨w.table, w.goroutines ++ [c]⟩) := by
  have hlen : p.length > 0 := length_pos_of_ne_empty p hp
  simp [Authorize, GetPlayerID_of_mem w.table c p hu hm, hlen]

theorem Authorize_of_absent (w : World) (c : String) (h : ∀ r ∈ w.table, r.AuthCode ≠ c) :
    Authorize none w c = (("", false), w) := by
  simp [Authorize, GetPlayerID_of_absent w.table c h]

theorem UniqueColumns_filter (t : Table) (keep : AuthCode → Bool) (hu : UniqueColumns t) :
    UniqueColumns (t.filter keep) :=
  ⟨hu.1.sublist ((List.filter_sublist t).map _), hu.2.sublist ((List.filter_sublist t).map _)⟩

theorem UniqueColumns_Delete (fault : Option DBError) (t : Table) (cond : AuthCode → Bool)
    (hu : UniqueColumns t) : UniqueColumns (Delete fault t cond).2 := by
  cases fault with
  | some e => exact hu
  | none => exact UniqueColumns_filter t _ hu

theorem Create_ok (fault : Option DBError) (t t1 : Table) (v : AuthCode)
    (h : Create fault t v = (none, t1)) :
    fault = none ∧ t1 = t ++ [v] ∧ ∀ r ∈ t, r.AuthCode ≠ v.AuthCode ∧ r.PlayerID ≠ v.PlayerID := by
  cases fault with
  | some e => simp [Create] at h
  | none =>
    simp only [Create] at h
    split at h
    · simp at h
    · rename_i hany
      simp at h
      refine ⟨rfl, h.symm, ?_⟩
      intro r hr
      simp only [List.any_eq_true, not_exists, not_and] at hany
      have := hany r hr
      simpa using this

theorem UniqueColumns_Create (fault : Option DBError) (t : Table) (v : AuthCode)
    (hu : UniqueColumns t) : UniqueColumns (Create fault t v).2 := by
  cases fault with
  | some e => exact hu
  | none =>
    simp only [Create]
    split
    · exact hu
    · rename_i hany
      simp only [List.any_eq_true, not_exists, not_and] at hany
      have hfree : ∀ r ∈ t, r.AuthCode ≠ v.AuthCode ∧ r.PlayerID ≠ v.PlayerID := by
        intro r hr
        simpa using hany r hr
      constructor
      · rw [List.map_append, List.nodup_append]
        refine ⟨hu.1, by simp, ?_⟩
        intro a ha hb
        simp only [List.map_cons, List.map_nil, List.mem_singleton] at hb
        obtain ⟨r, hr, rfl⟩ := List.mem_map.mp ha
        exact (hfree r hr).1 hb
      · rw [List.map_append, List.nodup_append]
        refine ⟨hu.2, by simp, ?_⟩
        intro a ha hb
        simp only [List.map_cons, List.map_nil, List.mem_singleton] at hb
        obtain ⟨r, hr, rfl⟩ := List.mem_map.mp ha
        exact (hfree r hr).2 hb

theorem foldl_last_mem (l : Table) (init : AuthCode) (h : l ≠ []) :
    l.foldl (fun _ r => r) init ∈ l := by
  induction l generalizing init with
  | nil => exact absurd rfl h
  | cons x xs ih =>
    cases xs with
    | nil => simp
    | cons y ys =>
      rw [List.foldl_cons]
      exact List.mem_cons_of_mem _ (ih x (by simp))

theorem GetAuthCode_mem_of_length_pos (fault : Option DBError) (t : Table) (p : String)
    (h : (GetAuthCode fault t p).1.1.length > 0) :
    fault = none ∧ (⟨(GetAuthCode fault t p).1.1, p⟩ : AuthCode) ∈ t := by
  cases fault with
  | some e => simp [GetAuthCode, Find] at h
  | none =>
    refine ⟨rfl, ?_⟩
    simp only [GetAuthCode, Find] at h ⊢
    cases hf : t.filter (fun r => r.PlayerID == p) with
    | nil => rw [hf] at h; simp at h
    | cons row rows =>
      simp only [hf]
      have hlast := foldl_last_mem (row :: rows) ⟨"", ""⟩ (by simp)
      have hmem : List.foldl (fun _ r => r) (⟨"", ""⟩ : AuthCode) (row :: rows) ∈
          t.filter (fun r => r.PlayerID == p) := by
        rw [hf]
        exact hlast
      rw [List.mem_filter] at hmem
      obtain ⟨hin, hp⟩ := hmem
      have hp2 : (List.foldl (fun _ r => r) (⟨"", ""⟩ : AuthCode) (row :: rows)).PlayerID = p := by
        simpa using hp
      have hrow : (⟨(List.foldl (fun _ r => r) (⟨"", ""⟩ : AuthCode) (row :: rows)).AuthCode, p⟩ :
          AuthCode) = List.foldl (fun _ r => r) (⟨"", ""⟩ : AuthCode) (row :: rows) := by
        rw [← hp2]
      rw [hrow]
      exact hin

theorem GetAuthCode_after_insert (t : Table) (c p : String) (h : ∀ r ∈ t, r.PlayerID ≠ p) :
    GetAuthCode none (t ++ [⟨c, p⟩]) p = ((c, none), t ++ [⟨c, p⟩]) := by
  have hf := filter_key_of_absent (fun r => r.PlayerID) t p h
  simp only at hf
  simp [GetAuthCode, Find, List.filter_append, hf]

theorem NewAuthCode_found (env : Env) (between : Table → Table) (t : Table) (p : String)
    (h : (GetAuthCode env.findFault t p).1.1.length > 0) :
    NewAuthCode env between t p = (((GetAuthCode env.findFault t p).1.1, none), t) := by
  simp [NewAuthCode, h]

theorem NewAuthCode_not_found (env : Env) (between : Table → Table) (t : Table) (p : String)
    (h : (GetAuthCode env.findFault t p).1.1 = "") :
    NewAuthCode env between t p =
      match Create env.createFault (between t) ⟨newToken env.newUUID, p⟩ with
      | (some err, t1) => (("", some err), t1)
      | (none, t1) => ((newToken env.newUUID, none), t1) := by
  simp [NewAuthCode, h]

theorem NewAuthCode_ok (env : Env) (between : Table → Table) (t t1 : Table) (p tok : String)
    (h : NewAuthCode env between t p = ((tok, none), t1)) :
    (t1 = t ∧ env.findFault = none ∧ (GetAuthCode none t p).1.1 = tok ∧ tok.length > 0 ∧
        (⟨tok, p⟩ : AuthCode) ∈ t) ∨
    (tok = newToken env.newUUID ∧ t1 = between t ++ [⟨tok, p⟩] ∧
        ∀ r ∈ between t, r.AuthCode ≠ tok ∧ r.PlayerID ≠ p) := by
  by_cases hlen : (GetAuthCode env.findFault t p).1.1.length > 0
  · left
    rw [NewAuthCode_found env between t p hlen] at h
    obtain ⟨hnone, hmem⟩ := GetAuthCode_mem_of_length_pos env.findFault t p hlen
    simp only [Prod.mk.injEq, and_true] at h
    obtain ⟨htok, ht⟩ := h
    rw [hnone] at htok hlen hmem
    rw [htok] at hlen hmem
    exact ⟨ht.symm, hnone, htok, hlen, hmem⟩
  · right
    have hempty : (GetAuthCode env.findFault t p).1.1 = "" := by
      by_contra hne
      exact hlen (length_pos_of_ne_empty _ hne)
    rw [NewAuthCode_not_found env between t p hempty] at h
    cases hc : Create env.createFault (between t) ⟨newToken env.newUUID, p⟩ with
    | mk err t2 =>
      rw [hc] at h
      cases err with
      | some e => simp at h
      | none =>
        simp only [Prod.mk.injEq, and_true] at h
        obtain ⟨htok, ht⟩ := h
        obtain ⟨_, happ, hfree⟩ := Create_ok _ _ _ _ hc
        subst htok
        subst ht
        exact ⟨rfl, happ, hfree⟩

theorem UniqueColumns_NewAuthCode (env : Env) (between : Table → Table) (t : Table)
    (p : String) (hu : UniqueColumns t) (hb : UniqueColumns (between t)) :
    UniqueColumns (NewAuthCode env between t p).2 := by
  by_cases hlen : (GetAuthCode env.findFault t p).1.1.length > 0
  · rw [NewAuthCode_found env between t p hlen]
    exact hu
  · have hempty : (GetAuthCode env.findFault t p).1.1 = "" := by
      by_contra hne
      exact hlen (length_pos_of_ne_empty _ hne)
    rw [NewAuthCode_not_found env between t p hempty]
    have hcr := UniqueColumns_Create env.createFault (between t) ⟨newToken env.newUUID, p⟩ hb
    cases hc : Create env.createFault (between t) ⟨newToken env.newUUID, p⟩ with
    | mk err t2 =>
      rw [hc] at hcr
      cases err with
      | some e => exact hcr
      | none => exact hcr

theorem UniqueColumns_step (w : World) (call : Call) (hu : UniqueColumns w.table) :
    UniqueColumns (step w call).table := by
  cases call with
  | NewAuthCode env playerID => exact UniqueColumns_NewAuthCode env id w.table playerID hu hu
  | Authorize fault authCode =>
    simp only [step, Authorize]
    split <;> exact hu
  | RemoveCode fault authCode => exact UniqueColumns_Delete fault w.table _ hu
  | runGoroutine fault i =>
    simp only [step, runGoroutine]
    split
    · exact hu
    · exact UniqueColumns_Delete fault w.table _ hu

theorem UniqueColumns_run (calls : List Call) (w : World) (hu : UniqueColumns w.table) :
    UniqueColumns (run w calls).table := by
  induction calls generalizing w with
  | nil => exact hu
  | cons call calls ih => exact ih (step w call) (UniqueColumns_step w call hu)

theorem row_eq_of_player (t : Table) (c p : String) (r : AuthCode) (hu : UniqueColumns t)
    (hm : (⟨c, p⟩ : AuthCode) ∈ t) (hr : r ∈ t) (hp : r.PlayerID = p) : r = ⟨c, p⟩ := by
  have hf := filter_key_of_mem (fun r => r.PlayerID) t ⟨c, p⟩ hu.2 hm
  have : r ∈ t.filter (fun r => r.PlayerID == p) := by
    rw [List.mem_filter]
    exact ⟨hr, by simpa using hp⟩
  simp only at hf
  rw [hf] at this
  simpa using this

theorem runGoroutine_last (w : World) (c : String) :
    runGoroutine none ⟨w.table, w.goroutines ++ [c]⟩ w.goroutines.length =
      ⟨(RemoveCode none w.table c).2, w.goroutines⟩ := by
  simp [runGoroutine, List.eraseIdx_append_of_length_le]

/-! ## The claims -/

/-- C1 (idempotent issuance).  When a call `NewAuthCode(p)` returns the token
`tok` with no error and leaves the table `t1`, a second call `NewAuthCode(p)` on
`t1` whose lookup reaches the table returns `tok` with no error and leaves `t1`
as it is, so no row is inserted.  This holds for every player ID, the non-empty
ones among them, and whatever UUID the second call would draw. -/
theorem C1_issuance_idempotent (env1 env2 : Env) (t t1 : Table) (p tok : String)
    (hfirst : NewAuthCode env1 id t p = ((tok, none), t1))
    (hfind : env2.findFault = none) :
    NewAuthCode env2 id t1 p = ((tok, none), t1) := by
  have hsecond : (GetAuthCode none t1 p).1.1 = tok ∧ tok.length > 0 := by
    rcases NewAuthCode_ok env1 id t t1 p tok hfirst with
      ⟨ht, _, hget, hlen, _⟩ | ⟨htok, ht, hfree⟩
    · rw [ht]
      exact ⟨hget, hlen⟩
    · have hget := GetAuthCode_after_insert (id t) tok p (fun r hr => (hfree r hr).2)
      rw [← ht] at hget
      refine ⟨by rw [hget], ?_⟩
      rw [htok, newToken_length]
      decide
  have hlen : (GetAuthCode env2.findFault t1 p).1.1.length > 0 := by
    rw [hfind, hsecond.1]
    exact hsecond.2
  rw [NewAuthCode_found env2 id t1 p hlen, hfind, hsecond.1]

/-- Witness of C1: a first issuance for `player-1` on the empty table, then a
second one that would draw another UUID. -/
theorem C1_issuance_idempotent_witness :
    NewAuthCode ⟨sampleUUID, none, none⟩ id [] "player-1" =
        (("a1c6eb10", none), [⟨"a1c6eb10", "player-1"⟩]) ∧
    NewAuthCode ⟨zeroUUID, none, none⟩ id [⟨"a1c6eb10", "player-1"⟩] "player-1" =
        (("a1c6eb10", none), [⟨"a1c6eb10", "player-1"⟩]) :=
  ⟨by decide,
   C1_issuance_idempotent ⟨sampleUUID, none, none⟩ ⟨zeroUUID, none, none⟩ []
     [⟨"a1c6eb10", "player-1"⟩] "player-1" "a1c6eb10" (by decide) rfl⟩

/-- C2 (uniqueness invariant).  Starting from the empty table, after every finite
history of `NewAuthCode`, `Authorize` and `RemoveCode` calls, with the goroutine
an `Authorize` starts running at any later point of the history, and whatever
store accesses fail on the way, no two rows of the table share an auth code and
no two rows share a player ID. -/
theorem C2_uniqueness_invariant (calls : List Call) :
    UniqueColumns (run World.empty calls).table :=
  UniqueColumns_run calls World.empty ⟨List.nodup_nil, List.nodup_nil⟩

/-- C3 as stated fails: two callers issue for `player-2` on the empty table.  The
lookup of the first finds nothing; before its insert of line 59 the second
caller runs `NewAuthCode("player-2")` through and wins with the token
`00000000`; the first then returns the empty token with the uniqueness
violation instead of `("00000000", nil)`. -/
theorem C3_conflict_surfaced :
    (GetAuthCode none [] "player-2").1.1 = "" ∧
    NewAuthCode ⟨zeroUUID, none, none⟩ id [] "player-2" =
      (("00000000", none), [⟨"00000000", "player-2"⟩]) ∧
    NewAuthCode ⟨sampleUUID, none, none⟩
        (fun t => (NewAuthCode ⟨zeroUUID, none, none⟩ id t "player-2").2) [] "player-2" =
      (("", some DBError.uniqueViolation), [⟨"00000000", "player-2"⟩]) ∧
    (NewAuthCode ⟨sampleUUID, none, none⟩
        (fun t => (NewAuthCode ⟨zeroUUID, none, none⟩ id t "player-2").2) [] "player-2").1 ≠
      ("00000000", none) := by
  decide

/-- C3 amended (conflict on issuance).  When the lookup of `NewAuthCode(p)` gives
no pending code and a row for `p` is in the table by the time of the insert, the
insert is rejected and `NewAuthCode(p)` returns the empty token together with
the uniqueness violation; the call leaves the table as the other callers made
it, the winning row included. -/
theorem C3_conflict_returns_violation (env : Env) (between : Table → Table) (t : Table)
    (p : String) (winner : AuthCode)
    (hlook : (GetAuthCode env.findFault t p).1.1 = "")
    (hwin : winner ∈ between t) (hplayer : winner.PlayerID = p)
    (hcreate : env.createFault = none) :
    NewAuthCode env between t p = (("", some DBError.uniqueViolation), between t) ∧
    winner ∈ (NewAuthCode env between t p).2 := by
  have hany : (between t).any
      (fun r => r.AuthCode == newToken env.newUUID || r.PlayerID == p) = true := by
    rw [List.any_eq_true]
    exact ⟨winner, hwin, by simp [hplayer]⟩
  have hres : NewAuthCode env between t p =
      (("", some DBError.uniqueViolation), between t) := by
    rw [NewAuthCode_not_found env between t p hlook, hcreate]
    simp [Create, hany]
  rw [hres]
  exact ⟨rfl, hwin⟩

/-- Witness of C3 amended: the lookup on a table with one other pending code
finds nothing for `player-2`, a second caller then issues for `player-2`, and
the insert of the first is rejected. -/
theorem C3_conflict_returns_violation_witness :
    NewAuthCode ⟨sampleUUID, none, none⟩
        (fun t => (NewAuthCode ⟨zeroUUID, none, none⟩ id t "player-2").2) sampleTable
        "player-2" =
      (("", some DBError.uniqueViolation),
        [⟨"a1b2c3d4", "player-1"⟩, ⟨"00000000", "player-2"⟩]) :=
  (C3_conflict_returns_violation ⟨sampleUUID, none, none⟩
    (fun t => (NewAuthCode ⟨zeroUUID, none, none⟩ id t "player-2").2) sampleTable
    "player-2" ⟨"00000000", "player-2"⟩ (by decide) (by decide) rfl rfl).1

/-- C4 as stated fails: the code `a1b2c3d4` is pending for `player-1` on a table
that satisfies the unique constraints and has no empty player ID, the lookup of
line 88 fails in transport, its error is dropped, and `Authorize` returns
`("", false)` instead of `("player-1", true)`. -/
theorem C4_failed_lookup_denies_pending :
    UniqueColumns sampleTable ∧
    (∀ r ∈ sampleTable, r.PlayerID ≠ "") ∧
    (⟨"a1b2c3d4", "player-1"⟩ : AuthCode) ∈ sampleTable ∧
    GetPlayerID (some refused) sampleTable "a1b2c3d4" = (("", some refused), sampleTable) ∧
    Authorize (some refused) ⟨sampleTable, []⟩ "a1b2c3d4" = (("", false), ⟨sampleTable, []⟩) ∧
    (Authorize (some refused) ⟨sampleTable, []⟩ "a1b2c3d4").1 ≠ ("player-1", true) := by
  decide

/-- C4 amended (result of `Authorize`).  On a table that satisfies the unique
constraints and whose player IDs are all non-empty: when the lookup reaches the
store, `Authorize(c)` returns `(p, true)` when the row `(c, p)` is pending and
`("", false)` when no pending row has the code `c`, so the flag is `true`
exactly when `c` is pending; when the lookup fails with a storage error, the
error is dropped and `Authorize(c)` returns `("", false)` and starts no
goroutine, whether `c` is pending or not. -/
theorem C4_authorize_result (w : World) (c : String) (hu : UniqueColumns w.table)
    (hne : ∀ r ∈ w.table, r.PlayerID ≠ "") :
    (∀ p, (⟨c, p⟩ : AuthCode) ∈ w.table → (Authorize none w c).1 = (p, true)) ∧
    ((∀ r ∈ w.table, r.AuthCode ≠ c) → (Authorize none w c).1 = ("", false)) ∧
    ((Authorize none w c).1.2 = true ↔ ∃ p, (⟨c, p⟩ : AuthCode) ∈ w.table) ∧
    (∀ e, Authorize (some e) w c = (("", false), w)) := by
  have hfound : ∀ p, (⟨c, p⟩ : AuthCode) ∈ w.table → (Authorize none w c).1 = (p, true) := by
    intro p hm
    rw [Authorize_of_mem w c p hu hm (hne _ hm)]
  have habsent : (∀ r ∈ w.table, r.AuthCode ≠ c) → (Authorize none w c).1 = ("", false) := by
    intro h
    rw [Authorize_of_absent w c h]
  refine ⟨hfound, habsent, ⟨?_, ?_⟩, ?_⟩
  · intro hok
    by_contra hex
    have h : ∀ r ∈ w.table, r.AuthCode ≠ c := by
      intro r hr hrc
      apply hex
      refine ⟨r.PlayerID, ?_⟩
      rw [← hrc]
      exact hr
    rw [habsent h] at hok
    simp at hok
  · rintro ⟨p, hm⟩
    rw [hfound p hm]
  · intro e
    simp [Authorize, GetPlayerID, Find]

/-- Witness of C4 amended: the pending code is authorized, an unknown one is
not, and a failed lookup denies the pending one. -/
theorem C4_authorize_result_witness :
    (Authorize none ⟨sampleTable, []⟩ "a1b2c3d4").1 = ("player-1", true) ∧
    (Authorize none ⟨sampleTable, []⟩ "nonexistent").1 = ("", false) ∧
    Authorize (some refused) ⟨sampleTable, []⟩ "a1b2c3d4" = (("", false), ⟨sampleTable, []⟩) :=
  ⟨(C4_authorize_result ⟨sampleTable, []⟩ "a1b2c3d4" (by decide) (by decide)).1
      "player-1" (by decide),
   (C4_authorize_result ⟨sampleTable, []⟩ "nonexistent" (by decide) (by decide)).2.1
      (by decide),
   (C4_authorize_result ⟨sampleTable, []⟩ "a1b2c3d4" (by decide) (by decide)).2.2.2
      refused⟩

/-- C5 (one-time redemption).  On a table that satisfies the unique constraints,
when `NewAuthCode(p)` for a non-empty `p` returns the token `tok` with no error,
`Authorize(tok)` returns `(p, true)` and starts the goroutine `RemoveCode(tok)`;
once that goroutine has run, `GetAuthCode(p)` and `GetPlayerID(tok)` return the
empty string and a further `Authorize(tok)` returns `("", false)`. -/
theorem C5_one_time_redemption (env : Env) (t t1 : Table) (gs : List String)
    (p tok : String) (hu : UniqueColumns t) (hp : p ≠ "")
    (hnew : NewAuthCode env id t p = ((tok, none), t1)) :
    Authorize none ⟨t1, gs⟩ tok = ((p, true), ⟨t1, gs ++ [tok]⟩) ∧
    runGoroutine none ⟨t1, gs ++ [tok]⟩ gs.length = ⟨(RemoveCode none t1 tok).2, gs⟩ ∧
    (GetAuthCode none (RemoveCode none t1 tok).2 p).1.1 = "" ∧
    (GetPlayerID none (RemoveCode none t1 tok).2 tok).1.1 = "" ∧
    (Authorize none ⟨(RemoveCode none t1 tok).2, gs⟩ tok).1 = ("", false) := by
  have hu1 : UniqueColumns t1 := by
    have h := UniqueColumns_NewAuthCode env id t p hu hu
    rw [hnew] at h
    exact h
  have hm : (⟨tok, p⟩ : AuthCode) ∈ t1 := by
    rcases NewAuthCode_ok env id t t1 p tok hnew with
      ⟨ht, _, _, _, hmem⟩ | ⟨_, ht, _⟩
    · rw [ht]
      exact hmem
    · rw [ht]
      simp
  have hcode : ∀ r ∈ (RemoveCode none t1 tok).2, r.AuthCode ≠ tok := by
    intro r hr
    simp only [RemoveCode, Delete, List.mem_filter] at hr
    simpa using hr.2
  have hplayer : ∀ r ∈ (RemoveCode none t1 tok).2, r.PlayerID ≠ p := by
    intro r hr hrp
    have hr1 : r ∈ t1 := by
      simp only [RemoveCode, Delete, List.mem_filter] at hr
      exact hr.1
    have heq := row_eq_of_player t1 tok p r hu1 hm hr1 hrp
    exact hcode r hr (by rw [heq])
  refine ⟨Authorize_of_mem ⟨t1, gs⟩ tok p hu1 hm hp, runGoroutine_last ⟨t1, gs⟩ tok, ?_, ?_, ?_⟩
  · rw [GetAuthCode_of_absent _ p hplayer]
  · rw [GetPlayerID_of_absent _ tok hcode]
  · rw [Authorize_of_absent ⟨(RemoveCode none t1 tok).2, gs⟩ tok hcode]

/-- Witness of C5: issuance for `player-1` next to another pending code, the
redemption, and the second redemption after the removal. -/
theorem C5_one_time_redemption_witness :
    NewAuthCode ⟨sampleUUID, none, none⟩ id [⟨"deadbeef", "player-2"⟩] "player-1" =
      (("a1c6eb10", none), [⟨"deadbeef", "player-2"⟩, ⟨"a1c6eb10", "player-1"⟩]) ∧
    Authorize none ⟨[⟨"deadbeef", "player-2"⟩, ⟨"a1c6eb10", "player-1"⟩], []⟩ "a1c6eb10" =
      (("player-1", true),
        ⟨[⟨"deadbeef", "player-2"⟩, ⟨"a1c6eb10", "player-1"⟩], ["a1c6eb10"]⟩) ∧
    (Authorize none ⟨(RemoveCode none
        [⟨"deadbeef", "player-2"⟩, ⟨"a1c6eb10", "player-1"⟩] "a1c6eb10").2, []⟩
        "a1c6eb10").1 = ("", false) :=
  have h := C5_one_time_redemption ⟨sampleUUID, none, none⟩ [⟨"deadbeef", "player-2"⟩]
    [⟨"deadbeef", "player-2"⟩, ⟨"a1c6eb10", "player-1"⟩] [] "player-1" "a1c6eb10"
    (by decide) (by decide) (by decide)
  ⟨by decide, h.1, h.2.2.2.2⟩

/-- C6 as stated fails: the lookup of `NewAuthCode("player-1")` fails with a
connection error, the error is dropped at line 51, the insert goes through and
the call reports success with a fresh token. -/
theorem C6_lookup_error_dropped :
    GetAuthCode (some refused) [] "player-1" = (("", some refused), []) ∧
    NewAuthCode ⟨sampleUUID, some refused, none⟩ id [] "player-1" =
      (("a1c6eb10", none), [⟨"a1c6eb10", "player-1"⟩]) ∧
    (NewAuthCode ⟨sampleUUID, some refused, none⟩ id [] "player-1").1.2 ≠ some refused := by
  decide

/-- C6 amended (storage errors on issuance).  An error of the initial lookup is
dropped: the call goes on as when the lookup gives no pending code.  Whenever
the lookup gives no pending code, failed or not, the result is that of the
insert: an insert that fails with the storage error `e` makes `NewAuthCode(p)`
return the empty token with `e` and leave the table alone, an insert the table
rejects makes it return the empty token with the uniqueness violation, and an
insert the table accepts makes it return the fresh token with no error. -/
theorem C6_insert_error_returned (env : Env) (between : Table → Table) (t : Table)
    (p : String) (hlook : env.findFault ≠ none ∨ (GetAuthCode none t p).1.1 = "") :
    (GetAuthCode env.findFault t p).1.1 = "" ∧
    (∀ e, env.createFault = some e →
      NewAuthCode env between t p = (("", some e), between t)) ∧
    (env.createFault = none →
      (∃ r ∈ between t, r.AuthCode = newToken env.newUUID ∨ r.PlayerID = p) →
      NewAuthCode env between t p = (("", some DBError.uniqueViolation), between t)) ∧
    (env.createFault = none →
      (∀ r ∈ between t, r.AuthCode ≠ newToken env.newUUID ∧ r.PlayerID ≠ p) →
      NewAuthCode env between t p =
        ((newToken env.newUUID, none), between t ++ [⟨newToken env.newUUID, p⟩])) := by
  have hempty : (GetAuthCode env.findFault t p).1.1 = "" := by
    cases hf : env.findFault with
    | none =>
      rcases hlook with h | h
      · exact absurd hf h
      · exact h
    | some e => rfl
  refine ⟨hempty, ?_, ?_, ?_⟩
  · intro e he
    rw [NewAuthCode_not_found env between t p hempty, he]
    rfl
  · rintro hc ⟨r, hr, hdup⟩
    have hany : (between t).any
        (fun r => r.AuthCode == newToken env.newUUID || r.PlayerID == p) = true := by
      rw [List.any_eq_true]
      exact ⟨r, hr, by simpa using hdup⟩
    rw [NewAuthCode_not_found env between t p hempty, hc]
    simp [Create, hany]
  · intro hc hfree
    have hany : ¬ (between t).any
        (fun r => r.AuthCode == newToken env.newUUID || r.PlayerID == p) = true := by
      rw [List.any_eq_true]
      rintro ⟨r, hr, hdup⟩
      have hdup2 : r.AuthCode = newToken env.newUUID ∨ r.PlayerID = p := by simpa using hdup
      rcases hdup2 with h | h
      · exact (hfree r hr).1 h
      · exact (hfree r hr).2 h
    rw [NewAuthCode_not_found env between t p hempty, hc]
    simp [Create, hany]

/-- Witness of C6 amended: lookup and insert both fail in transport, and the
error of the insert comes back. -/
theorem C6_insert_error_returned_witness :
    NewAuthCode ⟨sampleUUID, some refused, some refused⟩ id sampleTable "player-1" =
      (("", some refused), sampleTable) :=
  (C6_insert_error_returned ⟨sampleUUID, some refused, some refused⟩ id sampleTable
    "player-1" (Or.inl (by decide))).2.1 refused rfl

/-- C7 (removal is idempotent).  For every table and every code, pending or not,
`RemoveCode(c)` twice in a row over a reachable store returns no error either
time, and the table after the two calls is the table after the first; when no
pending row has the code `c`, `RemoveCode(c)` returns no error and leaves the
table as it is. -/
theorem C7_removal_idempotent (t : Table) (c : String) :
    (RemoveCode none t c).1 = none ∧
    (RemoveCode none (RemoveCode none t c).2 c).1 = none ∧
    (RemoveCode none (RemoveCode none t c).2 c).2 = (RemoveCode none t c).2 ∧
    ((∀ r ∈ t, r.AuthCode ≠ c) → RemoveCode none t c = (none, t)) := by
  refine ⟨rfl, rfl, ?_, ?_⟩
  · simp [RemoveCode, Delete, List.filter_filter]
  · intro h
    simp only [RemoveCode, Delete, Prod.mk.injEq, true_and]
    rw [List.filter_eq_self]
    intro r hr
    simpa using h r hr

/-- Witness of C7: removing a pending code twice, and removing an unknown code. -/
theorem C7_removal_idempotent_witness :
    RemoveCode none sampleTable "a1b2c3d4" = (none, []) ∧
    RemoveCode none (RemoveCode none sampleTable "a1b2c3d4").2 "a1b2c3d4" = (none, []) ∧
    RemoveCode none sampleTable "nonexistent" = (none, sampleTable) :=
  ⟨by decide, by decide,
   (C7_removal_idempotent sampleTable "nonexistent").2.2.2 (by decide)⟩

/-- C8 as stated fails: the row `("a1b2c3d4", "player-1")` is pending on a table
that satisfies the unique constraints, both lookups fail in transport, and each
returns the empty string (with the error) instead of the code or the player. -/
theorem C8_failed_lookup_returns_empty :
    UniqueColumns sampleTable ∧
    (⟨"a1b2c3d4", "player-1"⟩ : AuthCode) ∈ sampleTable ∧
    GetAuthCode (some refused) sampleTable "player-1" = (("", some refused), sampleTable) ∧
    (GetAuthCode (some refused) sampleTable "player-1").1.1 ≠ "a1b2c3d4" ∧
    GetPlayerID (some refused) sampleTable "a1b2c3d4" = (("", some refused), sampleTable) ∧
    (GetPlayerID (some refused) sampleTable "a1b2c3d4").1.1 ≠ "player-1" := by
  decide

/-- C8 amended (lookup contract).  On a table that satisfies the unique
constraints: when the lookup reaches the store, `GetAuthCode(p)` returns `c`
with no error when the row `(c, p)` is pending and the empty string when `p` has
no pending row, and `GetPlayerID(c)` returns `p` with no error when the row
`(c, p)` is pending and the empty string when no pending row has the code `c`;
when the lookup fails with a storage error `e`, either lookup returns the empty
string together with `e`, whether a row is pending or not; and neither lookup
changes the table, whether it reaches the store or not. -/
theorem C8_lookup_contract (t : Table) (c p : String) (hu : UniqueColumns t) :
    ((⟨c, p⟩ : AuthCode) ∈ t → (GetAuthCode none t p).1 = (c, none)) ∧
    ((∀ r ∈ t, r.PlayerID ≠ p) → (GetAuthCode none t p).1.1 = "") ∧
    ((⟨c, p⟩ : AuthCode) ∈ t → (GetPlayerID none t c).1 = (p, none)) ∧
    ((∀ r ∈ t, r.AuthCode ≠ c) → (GetPlayerID none t c).1.1 = "") ∧
    (∀ e, (GetAuthCode (some e) t p).1 = ("", some e) ∧
      (GetPlayerID (some e) t c).1 = ("", some e)) ∧
    (∀ fault, (GetAuthCode fault t p).2 = t ∧ (GetPlayerID fault t c).2 = t) := by
  refine ⟨?_, ?_, ?_, ?_, ?_, ?_⟩
  · intro hm
    rw [GetAuthCode_of_mem t c p hu hm]
  · intro h
    rw [GetAuthCode_of_absent t p h]
  · intro hm
    rw [GetPlayerID_of_mem t c p hu hm]
  · intro h
    rw [GetPlayerID_of_absent t c h]
  · intro e
    exact ⟨rfl, rfl⟩
  · intro fault
    exact ⟨rfl, rfl⟩

/-- Witness of C8 amended: both lookups on a table with two pending codes, and
a lookup that fails. -/
theorem C8_lookup_contract_witness :
    (GetAuthCode none [⟨"a1b2c3d4", "player-1"⟩, ⟨"deadbeef", "player-2"⟩]
      "player-2").1 = ("deadbeef", none) ∧
    (GetPlayerID none [⟨"a1b2c3d4", "player-1"⟩, ⟨"deadbeef", "player-2"⟩]
      "deadbeef").1 = ("player-2", none) ∧
    (GetAuthCode (some refused) [⟨"a1b2c3d4", "player-1"⟩, ⟨"deadbeef", "player-2"⟩]
      "player-2").1 = ("", some refused) :=
  have h := C8_lookup_contract [⟨"a1b2c3d4", "player-1"⟩, ⟨"deadbeef", "player-2"⟩]
    "deadbeef" "player-2" (by decide)
  ⟨h.1 (by decide), h.2.2.1 (by decide), (h.2.2.2.2.1 refused).1⟩

/-- C9 (double-redemption window).  The synchronous part of `Authorize` never
changes the table.  So on a table that satisfies the unique constraints and
holds the pending row `(c, p)` with `p` non-empty, two calls `Authorize(c)` made
before any of the started goroutines runs both return `(p, true)`, and the table
is still as it was with two goroutines `RemoveCode(c)` waiting. -/
theorem C9_double_redemption_window (w : World) (c p : String)
    (hu : UniqueColumns w.table) (hm : (⟨c, p⟩ : AuthCode) ∈ w.table) (hp : p ≠ "") :
    (∀ fault code, (Authorize fault w code).2.table = w.table) ∧
    Authorize none w c = ((p, true), ⟨w.table, w.goroutines ++ [c]⟩) ∧
    Authorize none (Authorize none w c).2 c =
      ((p, true), ⟨w.table, w.goroutines ++ [c] ++ [c]⟩) := by
  have h1 := Authorize_of_mem w c p hu hm hp
  refine ⟨?_, h1, ?_⟩
  · intro fault code
    simp only [Authorize]
    split <;> rfl
  · rw [h1]
    exact Authorize_of_mem ⟨w.table, w.goroutines ++ [c]⟩ c p hu hm hp

/-- Witness of C9: the pending code of `player-1` redeemed twice in a row. -/
theorem C9_double_redemption_window_witness :
    Authorize none ⟨sampleTable, []⟩ "a1b2c3d4" =
      (("player-1", true), ⟨sampleTable, ["a1b2c3d4"]⟩) ∧
    Authorize none ⟨sampleTable, ["a1b2c3d4"]⟩ "a1b2c3d4" =
      (("player-1", true), ⟨sampleTable, ["a1b2c3d4", "a1b2c3d4"]⟩) :=
  have h := C9_double_redemption_window ⟨sampleTable, []⟩ "a1b2c3d4" "player-1"
    (by decide) (by decide) (by decide)
  ⟨h.2.1, by decide⟩

/-- C10 (token shape).  For every 128-bit UUID the token of line 58, the text
before the first `-` of the UUID string, is 8 characters long, holds only the
digits `0123456789abcdef`, and is the hex encoding of the first 4 bytes of the
UUID: it equals the encoding in the claim's words (`hexEncoding_spec`, two
base-16 digits a byte, high digit first) and decodes back to those 4 bytes.  So
it is never the empty string and passes the test `len(..) > 0` that tells a
pending code from none. -/
theorem C10_token_shape (u : UUID) :
    (newToken u).length = 8 ∧
    (∀ ch ∈ (newToken u).toList, ch ∈ "0123456789abcdef".toList) ∧
    newToken u = String.mk (hexEncoding_spec [u 0, u 1, u 2, u 3]) ∧
    hexDecode (newToken u).toList = some [(u 0).val, (u 1).val, (u 2).val, (u 3).val] ∧
    newToken u = String.mk ((UUID_String u).toList.take 8) ∧
    newToken u ≠ "" ∧
    (newToken u).length > 0 := by
  refine ⟨newToken_length u, ?_, ?_, ?_, ?_, newToken_ne_empty u, ?_⟩
  · rw [newToken_eq]
    exact hexEncode_mem [u 0, u 1, u 2, u 3]
  · rw [newToken_eq, hexEncode_eq_spec]
  · rw [newToken_eq]
    exact hexDecode_hexEncode [u 0, u 1, u 2, u 3]
  · rw [newToken_eq]
    rfl
  · rw [newToken_length]
    decide

/-- Concrete tokens for C10: the UUID `a1c6eb10-355a-7fa4-c9ee-13385d82a7cc`,
whose first bytes are 161, 198, 235 and 16 (`a1 c6 eb 10`), gives the token
`a1c6eb10`, and the all-zero UUID gives `00000000`. -/
theorem C10_token_shape_witness :
    UUID_String sampleUUID = "a1c6eb10-355a-7fa4-c9ee-13385d82a7cc" ∧
    [(sampleUUID 0).val, (sampleUUID 1).val, (sampleUUID 2).val, (sampleUUID 3).val] =
      [161, 198, 235, 16] ∧
    newToken sampleUUID = "a1c6eb10" ∧
    newToken zeroUUID = "00000000" ∧
    hexDecode "a1c6eb10".toList = some [161, 198, 235, 16] ∧
    hexDecode (newToken sampleUUID).toList = some [161, 198, 235, 16] :=
  ⟨by decide, by decide, by decide, by decide, by decide,
   (C10_token_shape sampleUUID).2.2.2.1⟩

end db
